import Mathlib

/-
Formal model of the gfx_types graphics-primitive library (pixel formats,
buffer descriptors, integer rectangles, 2D affine transforms, colors).

Modelling conventions:
- u8 / u32 / usize values are modelled as Nat; i32 values as Int.
  Wrapping arithmetic of the source is made explicit with mod 2^32 or
  mod 2^64, the i32 saturating_add with an explicit clamp, and the
  u32 -> i32 and i32 -> u32 casts with explicit conversion functions.
- f32 values are modelled as exact rationals (Rat).  The saturating
  f32 -> u8 cast of the source (truncation toward zero, clamped to
  0..255) is modelled by u8cast below.
-/

namespace Gfx

-- ===========================================================================
-- Machine-integer helpers
-- ===========================================================================

/-- Interpretation of a u32 bit pattern as an i32 (two-complement cast,
    the Rust expression w as i32 for w : u32). -/
def u32_to_i32 (w : ℕ) : ℤ :=
  if w < 2 ^ 31 then (w : ℤ) else (w : ℤ) - 2 ^ 32

/-- Interpretation of an i32 value as a u32 bit pattern (the Rust
    expression z as u32 for z : i32). -/
def i32_to_u32 (z : ℤ) : ℕ :=
  (z % 2 ^ 32).toNat

/-- Wrapping i32 arithmetic: reduce an unbounded integer into the i32 range,
    as release-mode Rust overflow does. -/
def wrap_i32 (z : ℤ) : ℤ :=
  (z + 2 ^ 31) % 2 ^ 32 - 2 ^ 31

/-- The i32 saturating_add of the source (used by Rect.right and
    Rect.bottom). -/
def saturating_add (a b : ℤ) : ℤ :=
  max (-(2 ^ 31)) (min (2 ^ 31 - 1) (a + b))

-- ===========================================================================
-- PixelFormat (src/color/format.rs)
-- ===========================================================================

/-- Pixel formats supported by the graphics system, with the wire-stable
    repr u32 discriminants 0..9 of the source. -/
inductive PixelFormat where
  | ARGB8888
  | XRGB8888
  | RGB565
  | BGRA8888
  | RGBA8888
  | RGB888
  | BGR888
  | Gray8
  | Gray16
  | Alpha8
deriving DecidableEq, Repr, Fintype

namespace PixelFormat

/-- Number of bytes per pixel for the format. -/
def bytes_per_pixel : PixelFormat → ℕ
  | ARGB8888 | XRGB8888 | BGRA8888 | RGBA8888 => 4
  | RGB888 | BGR888 => 3
  | RGB565 | Gray16 => 2
  | Gray8 | Alpha8 => 1

/-- The repr u32 discriminant of the format (the Rust expression
    *self as u32). -/
def as_u32 : PixelFormat → ℕ
  | ARGB8888 => 0
  | XRGB8888 => 1
  | RGB565 => 2
  | BGRA8888 => 3
  | RGBA8888 => 4
  | RGB888 => 5
  | BGR888 => 6
  | Gray8 => 7
  | Gray16 => 8
  | Alpha8 => 9

/-- Conversion from a u32 value, mirroring the match of the source with a
    None fallthrough arm. -/
def from_u32 (value : ℕ) : Option PixelFormat :=
  if value = 0 then some ARGB8888
  else if value = 1 then some XRGB8888
  else if value = 2 then some RGB565
  else if value = 3 then some BGRA8888
  else if value = 4 then some RGBA8888
  else if value = 5 then some RGB888
  else if value = 6 then some BGR888
  else if value = 7 then some Gray8
  else if value = 8 then some Gray16
  else if value = 9 then some Alpha8
  else none

end PixelFormat

-- ===========================================================================
-- Rect (src/geometry/rect.rs)
-- ===========================================================================

/-- Integer rectangle: origin x, y are i32, width and height are u32. -/
structure Rect where
  x : ℤ
  y : ℤ
  width : ℕ
  height : ℕ
deriving DecidableEq, Repr

namespace Rect

/-- Well-formedness of the machine representation: the origin fits in i32
    and the dimensions fit in u32. -/
def WF (r : Rect) : Prop :=
  -(2 ^ 31) ≤ r.x ∧ r.x < 2 ^ 31 ∧ -(2 ^ 31) ≤ r.y ∧ r.y < 2 ^ 31 ∧
    r.width < 2 ^ 32 ∧ r.height < 2 ^ 32

instance (r : Rect) : Decidable r.WF := by
  unfold WF; infer_instance

/-- Exclusive right edge, computed with i32 saturating addition. -/
def right (r : Rect) : ℤ :=
  saturating_add r.x (u32_to_i32 r.width)

/-- Exclusive bottom edge, computed with i32 saturating addition. -/
def bottom (r : Rect) : ℤ :=
  saturating_add r.y (u32_to_i32 r.height)

/-- Emptiness test of the source: zero width or zero height. -/
def is_empty (r : Rect) : Prop :=
  r.width = 0 ∨ r.height = 0

instance (r : Rect) : Decidable r.is_empty := by
  unfold is_empty; infer_instance

/-- Containment of another rectangle. -/
def contains_rect (r other : Rect) : Prop :=
  other.x ≥ r.x ∧ other.y ≥ r.y ∧ other.right ≤ r.right ∧
    other.bottom ≤ r.bottom

instance (r s : Rect) : Decidable (r.contains_rect s) := by
  unfold contains_rect; infer_instance

/-- Overlap test of the source. -/
def intersects (r other : Rect) : Prop :=
  r.x < other.right ∧ r.right > other.x ∧ r.y < other.bottom ∧
    r.bottom > other.y

instance (r s : Rect) : Decidable (r.intersects s) := by
  unfold intersects; infer_instance

/-- Intersection of two rectangles.  The width and height subtractions are
    i32 subtractions (wrapping in release mode) whose result is cast to
    u32. -/
def intersection (r other : Rect) : Option Rect :=
  if max r.x other.x < min r.right other.right ∧
      max r.y other.y < min r.bottom other.bottom then
    some ⟨max r.x other.x, max r.y other.y,
      i32_to_u32 (wrap_i32 (min r.right other.right - max r.x other.x)),
      i32_to_u32 (wrap_i32 (min r.bottom other.bottom - max r.y other.y))⟩
  else
    none

/-- Union (bounding box) of two rectangles, with the early returns of the
    source when one side is empty. -/
def union (r other : Rect) : Rect :=
  if r.is_empty then other
  else if other.is_empty then r
  else
    ⟨min r.x other.x, min r.y other.y,
      i32_to_u32 (wrap_i32 (max r.right other.right - min r.x other.x)),
      i32_to_u32 (wrap_i32 (max r.bottom other.bottom - min r.y other.y))⟩

end Rect

-- ===========================================================================
-- BufferDescriptor (src/buffer/descriptor.rs)
-- ===========================================================================

/-- Descriptor of a pixel buffer: dimensions, row stride in bytes and pixel
    format.  All three numeric fields are u32 in the source. -/
structure BufferDescriptor where
  width : ℕ
  height : ℕ
  stride : ℕ
  format : PixelFormat
deriving DecidableEq, Repr

namespace BufferDescriptor

/-- Constructor with the default stride formula, width * bytes_per_pixel,
    computed in u32 arithmetic (hence the explicit wrap at 2^32). -/
def new (width height : ℕ) (format : PixelFormat) : BufferDescriptor :=
  { width := width
    height := height
    stride := width * format.bytes_per_pixel % 2 ^ 32
    format := format }

/-- Byte offset of the pixel at (x, y): y * stride + x * bytes_per_pixel,
    computed in usize arithmetic (hence the explicit wrap at 2^64). -/
def pixel_offset (d : BufferDescriptor) (x y : ℕ) : ℕ :=
  (y * d.stride + x * d.format.bytes_per_pixel) % 2 ^ 64

/-- Byte offset of the start of row y, computed in usize arithmetic. -/
def row_offset (d : BufferDescriptor) (y : ℕ) : ℕ :=
  y * d.stride % 2 ^ 64

/-- Sub-region carving.  The bounds checks x + width and y + height are u32
    additions (hence the explicit wrap at 2^32). -/
def sub_region (d : BufferDescriptor) (rect : Rect) :
    Option (BufferDescriptor × ℕ) :=
  if rect.x < 0 ∨ rect.y < 0 then none
  else if (rect.x.toNat + rect.width) % 2 ^ 32 > d.width ∨
      (rect.y.toNat + rect.height) % 2 ^ 32 > d.height then
    none
  else
    some ({ width := rect.width
            height := rect.height
            stride := d.stride
            format := d.format }, d.pixel_offset rect.x.toNat rect.y.toNat)

end BufferDescriptor

-- ===========================================================================
-- Color (src/color/color.rs), packed 0xAARRGGBB in a u32
-- ===========================================================================

/-- Packed 32-bit ARGB color, a transparent wrapper over a u32 word. -/
structure Color where
  raw : ℕ
deriving DecidableEq, Repr

namespace Color

/-- Packing from ARGB byte components by shifts and bitwise or. -/
def argb (a r g b : ℕ) : Color :=
  ⟨(a <<< 24) ||| (r <<< 16) ||| (g <<< 8) ||| b⟩

/-- Packing from RGB components with alpha 255. -/
def rgb (r g b : ℕ) : Color :=
  argb 255 r g b

/-- Alpha component, extracted by shift and mask. -/
def alpha (c : Color) : ℕ :=
  (c.raw >>> 24) &&& 0xFF

/-- Red component, extracted by shift and mask. -/
def red (c : Color) : ℕ :=
  (c.raw >>> 16) &&& 0xFF

/-- Green component, extracted by shift and mask. -/
def green (c : Color) : ℕ :=
  (c.raw >>> 8) &&& 0xFF

/-- Blue component, extracted by mask. -/
def blue (c : Color) : ℕ :=
  c.raw &&& 0xFF

/-- Color inversion: complements red, green and blue, keeps alpha. -/
def invert (c : Color) : Color :=
  argb c.alpha (255 - c.red) (255 - c.green) (255 - c.blue)

end Color

-- ===========================================================================
-- Exact-rational model of the f32 operations
-- ===========================================================================

/-- Model of the external rdsmath absf: absolute value. -/
def absf (q : ℚ) : ℚ := |q|

/-- Model of the Rust f32 clamp method: if below lo take lo, if above hi
    take hi, otherwise the value itself. -/
def clampf (x lo hi : ℚ) : ℚ :=
  if x < lo then lo else if x > hi then hi else x

/-- Model of the saturating Rust cast from f32 to u8: truncation toward
    zero, clamped into 0..255. -/
def u8cast (q : ℚ) : ℕ :=
  if q ≤ 0 then 0 else if 255 ≤ q then 255 else (⌊q⌋).toNat

-- ===========================================================================
-- PointF / RectF (src/geometry/point.rs, rect.rs), f32 as exact rationals
-- ===========================================================================

/-- Floating-point 2D point. -/
structure PointF where
  x : ℚ
  y : ℚ
deriving DecidableEq, Repr

/-- Floating-point rectangle. -/
structure RectF where
  x : ℚ
  y : ℚ
  width : ℚ
  height : ℚ
deriving DecidableEq, Repr

namespace RectF

/-- Right edge x + width. -/
def right (r : RectF) : ℚ := r.x + r.width

/-- Bottom edge y + height. -/
def bottom (r : RectF) : ℚ := r.y + r.height

end RectF

-- ===========================================================================
-- Transform2D (src/geometry/transform.rs), f32 as exact rationals
-- ===========================================================================

/-- Affine 2D transform with layout (a, b, c, d, tx, ty): a and d scale,
    b and c skew or rotation, tx and ty translation. -/
structure Transform2D where
  a : ℚ
  b : ℚ
  c : ℚ
  d : ℚ
  tx : ℚ
  ty : ℚ
deriving DecidableEq, Repr

namespace Transform2D

/-- Scale plus translation test: no skew or rotation coefficients. -/
def is_scale_translation (t : Transform2D) : Prop :=
  t.b = 0 ∧ t.c = 0

instance (t : Transform2D) : Decidable t.is_scale_translation := by
  unfold is_scale_translation; infer_instance

/-- Concatenation with another transform, self times other, so that the
    result applies self first and other second. -/
def then' (t other : Transform2D) : Transform2D :=
  { a := t.a * other.a + t.b * other.c
    b := t.a * other.b + t.b * other.d
    c := t.c * other.a + t.d * other.c
    d := t.c * other.b + t.d * other.d
    tx := t.tx * other.a + t.ty * other.c + other.tx
    ty := t.tx * other.b + t.ty * other.d + other.ty }

/-- Application of the transform to a point. -/
def transform_point (t : Transform2D) (p : PointF) : PointF :=
  { x := t.a * p.x + t.c * p.y + t.tx
    y := t.b * p.x + t.d * p.y + t.ty }

/-- The general path of transform_rect: transform the four corners and
    return their axis-aligned bounding box (the else branch of the
    source). -/
def transform_rect_corners (t : Transform2D) (r : RectF) : RectF :=
  let p1 := t.transform_point ⟨r.x, r.y⟩
  let p2 := t.transform_point ⟨r.right, r.y⟩
  let p3 := t.transform_point ⟨r.x, r.bottom⟩
  let p4 := t.transform_point ⟨r.right, r.bottom⟩
  let min_x := min (min (min p1.x p2.x) p3.x) p4.x
  let max_x := max (max (max p1.x p2.x) p3.x) p4.x
  let min_y := min (min (min p1.y p2.y) p3.y) p4.y
  let max_y := max (max (max p1.y p2.y) p3.y) p4.y
  ⟨min_x, min_y, max_x - min_x, max_y - min_y⟩

/-- Transformation of a rectangle into the bounding box of its image, with
    the cheap direct path for pure scale plus translation. -/
def transform_rect (t : Transform2D) (r : RectF) : RectF :=
  if t.is_scale_translation then
    { x := r.x * t.a + t.tx
      y := r.y * t.d + t.ty
      width := r.width * absf t.a
      height := r.height * absf t.d }
  else
    t.transform_rect_corners r

end Transform2D

-- ===========================================================================
-- ColorF (src/color/color.rs), f32 as exact rationals
-- ===========================================================================

/-- Floating-point color with components intended in 0..1. -/
structure ColorF where
  r : ℚ
  g : ℚ
  b : ℚ
  a : ℚ
deriving DecidableEq, Repr

namespace ColorF

/-- Clamp of all components into 0..1. -/
def saturate (c : ColorF) : ColorF :=
  { r := clampf c.r 0 1
    g := clampf c.g 0 1
    b := clampf c.b 0 1
    a := clampf c.a 0 1 }

/-- Component-wise linear interpolation; the parameter is used as given,
    without clamping. -/
def lerp (c other : ColorF) (t : ℚ) : ColorF :=
  { r := c.r + (other.r - c.r) * t
    g := c.g + (other.g - c.g) * t
    b := c.b + (other.b - c.b) * t
    a := c.a + (other.a - c.a) * t }

/-- Conversion to the packed 8-bit color: saturate, scale by 255 and apply
    the truncating saturating cast. -/
def to_color (c : ColorF) : Color :=
  Color.argb (u8cast (c.saturate.a * 255)) (u8cast (c.saturate.r * 255))
    (u8cast (c.saturate.g * 255)) (u8cast (c.saturate.b * 255))

end ColorF

namespace Color

/-- Conversion to the floating-point color, dividing each component
    by 255. -/
def to_float (c : Color) : ColorF :=
  { r := (c.red : ℚ) / 255
    g := (c.green : ℚ) / 255
    b := (c.blue : ℚ) / 255
    a := (c.alpha : ℚ) / 255 }

/-- Linear interpolation of packed colors: the parameter is clamped into
    0..1 before blending and each blended component is cast back to u8. -/
def lerp (c other : Color) (t : ℚ) : Color :=
  argb (u8cast ((c.alpha : ℚ) * (1 - clampf t 0 1) + (other.alpha : ℚ) * clampf t 0 1))
    (u8cast ((c.red : ℚ) * (1 - clampf t 0 1) + (other.red : ℚ) * clampf t 0 1))
    (u8cast ((c.green : ℚ) * (1 - clampf t 0 1) + (other.green : ℚ) * clampf t 0 1))
    (u8cast ((c.blue : ℚ) * (1 - clampf t 0 1) + (other.blue : ℚ) * clampf t 0 1))

end Color

-- ===========================================================================
-- Helper lemmas: bitwise packing and extraction of color bytes
-- ===========================================================================

lemma lor_add_of_lt {x y n : ℕ} (hy : y < 2 ^ n) :
    x * 2 ^ n ||| y = x * 2 ^ n + y := by
  calc x * 2 ^ n ||| y = 2 ^ n * x ||| y := by rw [Nat.mul_comm]
    _ = 2 ^ n * x + y := (Nat.mul_add_lt_is_or hy x).symm
    _ = x * 2 ^ n + y := by ring

lemma argb_raw (a r g b : ℕ) (hr : r < 256) (hg : g < 256) (hb : b < 256) :
    (Color.argb a r g b).raw = a * 2 ^ 24 + r * 2 ^ 16 + g * 2 ^ 8 + b := by
  unfold Color.argb
  simp only [Nat.shiftLeft_eq]
  rw [Nat.lor_assoc, Nat.lor_assoc]
  rw [lor_add_of_lt (show b < 2 ^ 8 by omega)]
  rw [lor_add_of_lt (show g * 2 ^ 8 + b < 2 ^ 16 by omega)]
  rw [lor_add_of_lt (show r * 2 ^ 16 + (g * 2 ^ 8 + b) < 2 ^ 24 by omega)]
  ring

lemma alpha_eq (c : Color) : c.alpha = c.raw / 2 ^ 24 % 2 ^ 8 := by
  unfold Color.alpha
  rw [Nat.shiftRight_eq_div_pow,
    show (0xFF : ℕ) = 2 ^ 8 - 1 by norm_num, Nat.and_pow_two_sub_one_eq_mod]

lemma red_eq (c : Color) : c.red = c.raw / 2 ^ 16 % 2 ^ 8 := by
  unfold Color.red
  rw [Nat.shiftRight_eq_div_pow,
    show (0xFF : ℕ) = 2 ^ 8 - 1 by norm_num, Nat.and_pow_two_sub_one_eq_mod]

lemma green_eq (c : Color) : c.green = c.raw / 2 ^ 8 % 2 ^ 8 := by
  unfold Color.green
  rw [Nat.shiftRight_eq_div_pow,
    show (0xFF : ℕ) = 2 ^ 8 - 1 by norm_num, Nat.and_pow_two_sub_one_eq_mod]

lemma blue_eq (c : Color) : c.blue = c.raw % 2 ^ 8 := by
  unfold Color.blue
  rw [show (0xFF : ℕ) = 2 ^ 8 - 1 by norm_num, Nat.and_pow_two_sub_one_eq_mod]

lemma alpha_argb (a r g b : ℕ) (ha : a < 256) (hr : r < 256) (hg : g < 256)
    (hb : b < 256) : (Color.argb a r g b).alpha = a := by
  rw [alpha_eq, argb_raw a r g b hr hg hb]; omega

lemma red_argb (a r g b : ℕ) (hr : r < 256) (hg : g < 256)
    (hb : b < 256) : (Color.argb a r g b).red = r := by
  rw [red_eq, argb_raw a r g b hr hg hb]; omega

lemma green_argb (a r g b : ℕ) (hr : r < 256) (hg : g < 256)
    (hb : b < 256) : (Color.argb a r g b).green = g := by
  rw [green_eq, argb_raw a r g b hr hg hb]; omega

lemma blue_argb (a r g b : ℕ) (hr : r < 256) (hg : g < 256)
    (hb : b < 256) : (Color.argb a r g b).blue = b := by
  rw [blue_eq, argb_raw a r g b hr hg hb]; omega

lemma color_eq_of_raw (c d : Color) (h : c.raw = d.raw) : c = d := by
  cases c; cases d; simpa using h

-- ===========================================================================
-- C9: PixelFormat discriminants are wire-stable and round-trip
-- ===========================================================================

/-- C9: every PixelFormat round-trips through as_u32 and from_u32, the
    discriminants take the documented numeric values (ARGB8888 is 0 and
    RGB565 is 2), and from_u32 returns none on every u32 value that is not
    a listed discriminant. -/
theorem C9_pixelformat_roundtrip :
    (∀ f : PixelFormat, PixelFormat.from_u32 f.as_u32 = some f) ∧
    PixelFormat.as_u32 .ARGB8888 = 0 ∧ PixelFormat.as_u32 .RGB565 = 2 ∧
    ∀ v : ℕ, v < 2 ^ 32 → (∀ f : PixelFormat, f.as_u32 ≠ v) →
      PixelFormat.from_u32 v = none := by
  refine ⟨by decide, rfl, rfl, ?_⟩
  intro v _ hne
  unfold PixelFormat.from_u32
  split_ifs with h0 h1 h2 h3 h4 h5 h6 h7 h8 h9
  · exact absurd h0.symm (hne .ARGB8888)
  · exact absurd h1.symm (hne .XRGB8888)
  · exact absurd h2.symm (hne .RGB565)
  · exact absurd h3.symm (hne .BGRA8888)
  · exact absurd h4.symm (hne .RGBA8888)
  · exact absurd h5.symm (hne .RGB888)
  · exact absurd h6.symm (hne .BGR888)
  · exact absurd h7.symm (hne .Gray8)
  · exact absurd h8.symm (hne .Gray16)
  · exact absurd h9.symm (hne .Alpha8)
  · rfl

/-- C9 witness: the non-discriminant value 10 maps to none. -/
theorem C9_pixelformat_roundtrip_w : PixelFormat.from_u32 10 = none :=
  C9_pixelformat_roundtrip.2.2.2 10 (by norm_num) (by decide)

-- ===========================================================================
-- C10: Color.invert is an alpha-preserving involution
-- ===========================================================================

/-- C10: for every u32 bit pattern, invert twice is the identity, invert
    preserves alpha, and each of red, green, blue is complemented
    against 255. -/
theorem C10_invert_involution (c : Color) (h : c.raw < 2 ^ 32) :
    c.invert.invert = c ∧ c.invert.alpha = c.alpha ∧
    c.invert.red = 255 - c.red ∧ c.invert.green = 255 - c.green ∧
    c.invert.blue = 255 - c.blue := by
  have ha := alpha_eq c
  have hr := red_eq c
  have hg := green_eq c
  have hb := blue_eq c
  have ha2 : c.alpha < 256 := by omega
  have hr2 : c.red < 256 := by omega
  have hg2 : c.green < 256 := by omega
  have hb2 : c.blue < 256 := by omega
  have hinv : c.invert =
      Color.argb c.alpha (255 - c.red) (255 - c.green) (255 - c.blue) := rfl
  have hA := alpha_argb c.alpha (255 - c.red) (255 - c.green) (255 - c.blue)
    ha2 (by omega) (by omega) (by omega)
  have hR := red_argb c.alpha (255 - c.red) (255 - c.green) (255 - c.blue)
    (by omega) (by omega) (by omega)
  have hG := green_argb c.alpha (255 - c.red) (255 - c.green) (255 - c.blue)
    (by omega) (by omega) (by omega)
  have hB := blue_argb c.alpha (255 - c.red) (255 - c.green) (255 - c.blue)
    (by omega) (by omega) (by omega)
  refine ⟨?_, by rw [hinv, hA], by rw [hinv, hR], by rw [hinv, hG],
    by rw [hinv, hB]⟩
  have hinv2 : c.invert.invert =
      Color.argb c.invert.alpha (255 - c.invert.red)
        (255 - c.invert.green) (255 - c.invert.blue) := rfl
  rw [hinv2, hinv, hA, hR, hG, hB]
  have e1 : 255 - (255 - c.red) = c.red := by omega
  have e2 : 255 - (255 - c.green) = c.green := by omega
  have e3 : 255 - (255 - c.blue) = c.blue := by omega
  rw [e1, e2, e3]
  refine color_eq_of_raw _ _ ?_
  rw [argb_raw c.alpha c.red c.green c.blue hr2 hg2 hb2]
  omega

/-- C10 witness: inverting the color 0xFF6496C8 twice gives it back. -/
theorem C10_invert_involution_w :
    Color.invert (Color.invert ⟨0xFF6496C8⟩) = (⟨0xFF6496C8⟩ : Color) :=
  (C10_invert_involution ⟨0xFF6496C8⟩ (by norm_num)).1

-- ===========================================================================
-- C1: pixel_offset and row_offset formulas for the default ARGB descriptor
-- ===========================================================================

/-- C1 counterexample: for width 2 to the 30, the u32 stride computation
    in BufferDescriptor.new wraps, so the stride is not width times
    bytes_per_pixel and pixel_offset at x 0, y 1 is not y*w*4 + x*4. -/
theorem C1_offset_formula_cx :
    (BufferDescriptor.new (2 ^ 30) 2 .ARGB8888).stride ≠
      2 ^ 30 * PixelFormat.bytes_per_pixel .ARGB8888 ∧
    (BufferDescriptor.new (2 ^ 30) 2 .ARGB8888).pixel_offset 0 1 ≠
      1 * 2 ^ 30 * 4 + 0 * 4 := by
  constructor <;> decide

/-- C1 amended: when the default stride computation w * 4 does not
    overflow u32, the descriptor built by new for ARGB8888 satisfies
    pixel_offset x y = y*w*4 + x*4 for x < w and y < h, row_offset y is
    y times the stride, and the stride is w times bytes_per_pixel. -/
theorem C1_offset_formula (w h x y : ℕ) (hw : w < 2 ^ 32) (hh : h < 2 ^ 32)
    (hx : x < w) (hy : y < h) (hs : w * 4 < 2 ^ 32) :
    (BufferDescriptor.new w h .ARGB8888).pixel_offset x y = y * w * 4 + x * 4 ∧
    (BufferDescriptor.new w h .ARGB8888).row_offset y =
      y * (BufferDescriptor.new w h .ARGB8888).stride ∧
    (BufferDescriptor.new w h .ARGB8888).stride =
      w * PixelFormat.bytes_per_pixel .ARGB8888 := by
  have hbpp : PixelFormat.bytes_per_pixel .ARGB8888 = 4 := rfl
  unfold BufferDescriptor.new BufferDescriptor.pixel_offset
    BufferDescriptor.row_offset
  simp only [hbpp]
  have hstride : w * 4 % 2 ^ 32 = w * 4 := Nat.mod_eq_of_lt hs
  rw [hstride]
  have h1 : y * (w * 4) ≤ (2 ^ 32 - 1) * (2 ^ 32 - 1) :=
    Nat.mul_le_mul (by omega) (by omega)
  have h2 : x * 4 ≤ w * 4 := Nat.mul_le_mul_right 4 (le_of_lt hx)
  have h3 : y * (w * 4) + x * 4 < (2 ^ 32 - 1) * (2 ^ 32 - 1) + 2 ^ 32 :=
    Nat.add_lt_add_of_le_of_lt h1 (by omega)
  have h4 : (2 ^ 32 - 1) * (2 ^ 32 - 1) + 2 ^ 32 < 2 ^ 64 := by norm_num
  refine ⟨?_, ?_, rfl⟩
  · rw [Nat.mod_eq_of_lt (lt_trans h3 h4)]
    ring
  · rw [Nat.mod_eq_of_lt (lt_of_le_of_lt (Nat.le_add_right _ (x * 4))
      (lt_trans h3 h4))]

/-- C1 witness: the 100 x 100 ARGB8888 descriptor puts pixel (1, 1) at
    byte 404. -/
theorem C1_offset_formula_w :
    (BufferDescriptor.new 100 100 .ARGB8888).pixel_offset 1 1 =
      1 * 100 * 4 + 1 * 4 :=
  (C1_offset_formula 100 100 1 1 (by norm_num) (by norm_num) (by norm_num)
    (by norm_num) (by norm_num)).1

-- ===========================================================================
-- C2: then composes left to right on points
-- ===========================================================================

/-- C2: applying t1 then t2 composed with then to a point equals applying
    t1 first and t2 second (left-to-right composition), in the
    exact-arithmetic model of f32. -/
theorem C2_then_composition (t1 t2 : Transform2D) (p : PointF) :
    (t1.then' t2).transform_point p =
      t2.transform_point (t1.transform_point p) := by
  unfold Transform2D.then' Transform2D.transform_point
  rw [PointF.mk.injEq]
  exact ⟨by ring, by ring⟩

-- ===========================================================================
-- C6: Color to ColorF to Color round-trip is exact
-- ===========================================================================

lemma u8cast_natCast (n : ℕ) (h : n ≤ 255) : u8cast (n : ℚ) = n := by
  unfold u8cast
  split_ifs with h1 h2
  · have h0 : (n : ℚ) = 0 := le_antisymm h1 (by positivity)
    exact_mod_cast h0.symm
  · have h3 : (255 : ℕ) ≤ n := by exact_mod_cast h2
    omega
  · rw [Int.floor_natCast]
    simp

lemma clampf_of_le (x lo hi : ℚ) (h1 : lo ≤ x) (h2 : x ≤ hi) :
    clampf x lo hi = x := by
  unfold clampf
  split_ifs with g1 g2
  · linarith
  · linarith
  · rfl

/-- C6: converting any 8-bit RGB color to floats and back reproduces the
    color exactly, with alpha 255, in the exact-arithmetic model in which
    the float-to-int direction truncates after saturation. -/
theorem C6_color_roundtrip (r g b : ℕ) (hr : r < 256) (hg : g < 256)
    (hb : b < 256) :
    (Color.rgb r g b).to_float.to_color = Color.rgb r g b ∧
    (Color.rgb r g b).alpha = 255 := by
  have hA : (Color.rgb r g b).alpha = 255 :=
    alpha_argb 255 r g b (by norm_num) hr hg hb
  have hR : (Color.rgb r g b).red = r := red_argb 255 r g b hr hg hb
  have hG : (Color.rgb r g b).green = g := green_argb 255 r g b hr hg hb
  have hB : (Color.rgb r g b).blue = b := blue_argb 255 r g b hr hg hb
  refine ⟨?_, hA⟩
  unfold Color.to_float ColorF.to_color ColorF.saturate
  simp only [hA, hR, hG, hB]
  have comp : ∀ n : ℕ, n < 256 → u8cast (clampf ((n : ℚ) / 255) 0 1 * 255) = n := by
    intro n hn
    have hle : (n : ℚ) / 255 ≤ 1 := by
      rw [div_le_one (by norm_num)]
      exact_mod_cast Nat.le_of_lt_succ hn
    rw [clampf_of_le _ _ _ (by positivity) hle]
    rw [div_mul_cancel₀ _ (show (255 : ℚ) ≠ 0 by norm_num)]
    exact u8cast_natCast n (by omega)
  have c255 : u8cast (clampf ((255 : ℚ) / 255) 0 1 * 255) = 255 := by
    norm_num
    rw [clampf_of_le _ _ _ (by norm_num) (by norm_num)]
    unfold u8cast
    norm_num
  rw [comp r hr, comp g hg, comp b hb,
    show ((255 : ℕ) : ℚ) = (255 : ℚ) by norm_num, c255]
  rfl

/-- C6 witness: the round-trip at the concrete triple (100, 150, 200). -/
theorem C6_color_roundtrip_w :
    (Color.rgb 100 150 200).to_float.to_color = Color.rgb 100 150 200 :=
  (C6_color_roundtrip 100 150 200 (by norm_num) (by norm_num) (by norm_num)).1

-- ===========================================================================
-- C8: integer lerp clamps its parameter, float lerp does not
-- ===========================================================================

lemma clampf_idem (t : ℚ) : clampf (clampf t 0 1) 0 1 = clampf t 0 1 := by
  unfold clampf
  split_ifs <;> first | rfl | linarith

/-- C8: Color.lerp agrees with itself at the clamped parameter for every
    parameter value, while ColorF.lerp differs from its clamped variant on
    some input, so extrapolation survives only on the float path. -/
theorem C8_lerp_clamp_asymmetry :
    (∀ (c1 c2 : Color) (t : ℚ), c1.lerp c2 t = c1.lerp c2 (clampf t 0 1)) ∧
    ∃ (f1 f2 : ColorF) (t : ℚ),
      f1.lerp f2 t ≠ f1.lerp f2 (clampf t 0 1) := by
  constructor
  · intro c1 c2 t
    unfold Color.lerp
    rw [clampf_idem]
  · refine ⟨⟨0, 0, 0, 0⟩, ⟨1, 1, 1, 1⟩, 2, ?_⟩
    unfold ColorF.lerp clampf
    norm_num

-- ===========================================================================
-- C7: cheap scale-translation path of transform_rect versus the corner
-- bounding box of the general path
-- ===========================================================================

lemma min4_chain (A B : ℚ) (h : A ≤ B) : min (min (min A B) A) B = A := by
  rw [min_eq_left h, min_self, min_eq_left h]

lemma max4_chain (A B : ℚ) (h : A ≤ B) : max (max (max A B) A) B = B := by
  rw [max_eq_right h, max_eq_left h, max_self]

lemma min4_pair (A B : ℚ) (h : A ≤ B) : min (min (min A A) B) B = A := by
  rw [min_self, min_eq_left h, min_eq_left h]

lemma max4_pair (A B : ℚ) (h : A ≤ B) : max (max (max A A) B) B = B := by
  rw [max_self, max_eq_right h, max_self]

/-- C7 counterexample: for the pure mirror scale a = -1 (which satisfies
    is_scale_translation) the cheap path result differs from the corner
    bounding box: the cheap path keeps x = 0 while the bounding box of the
    transformed corners starts at x = -1. -/
theorem C7_cheap_path_cx :
    Transform2D.is_scale_translation ⟨-1, 0, 0, 1, 0, 0⟩ ∧
    Transform2D.transform_rect ⟨-1, 0, 0, 1, 0, 0⟩ ⟨0, 0, 1, 1⟩ ≠
      Transform2D.transform_rect_corners ⟨-1, 0, 0, 1, 0, 0⟩ ⟨0, 0, 1, 1⟩ := by
  refine ⟨⟨rfl, rfl⟩, ?_⟩
  have h1 : Transform2D.transform_rect ⟨-1, 0, 0, 1, 0, 0⟩ ⟨0, 0, 1, 1⟩ =
      (⟨0, 0, 1, 1⟩ : RectF) := by
    have hst : Transform2D.is_scale_translation ⟨-1, 0, 0, 1, 0, 0⟩ := ⟨rfl, rfl⟩
    unfold Transform2D.transform_rect absf
    rw [if_pos hst]
    norm_num [RectF.mk.injEq]
  have h2 : Transform2D.transform_rect_corners ⟨-1, 0, 0, 1, 0, 0⟩ ⟨0, 0, 1, 1⟩ =
      (⟨-1, 0, 1, 1⟩ : RectF) := by
    unfold Transform2D.transform_rect_corners Transform2D.transform_point
      RectF.right RectF.bottom
    norm_num [RectF.mk.injEq, min_def, max_def]
  rw [h1, h2]
  intro h
  rw [RectF.mk.injEq] at h
  norm_num at h

/-- C7 amended: for nonnegative scale factors a and d (with b = c = 0) and
    a rectangle with nonnegative width and height, the cheap path equals
    the corner bounding box of the general path exactly. -/
theorem C7_cheap_path_eq_corners (t : Transform2D) (r : RectF)
    (hb : t.b = 0) (hc : t.c = 0) (ha : 0 ≤ t.a) (hd : 0 ≤ t.d)
    (hw : 0 ≤ r.width) (hh : 0 ≤ r.height) :
    t.transform_rect r = t.transform_rect_corners r := by
  have hst : t.is_scale_translation := ⟨hb, hc⟩
  unfold Transform2D.transform_rect
  rw [if_pos hst]
  unfold Transform2D.transform_rect_corners Transform2D.transform_point
    RectF.right RectF.bottom
  simp only [hb, hc, zero_mul, mul_zero, add_zero, zero_add]
  have hlex : t.a * r.x + t.tx ≤ t.a * (r.x + r.width) + t.tx := by nlinarith
  have hley : t.d * r.y + t.ty ≤ t.d * (r.y + r.height) + t.ty := by nlinarith
  rw [RectF.mk.injEq]
  rw [min4_chain _ _ hlex, max4_chain _ _ hlex,
    min4_pair _ _ hley, max4_pair _ _ hley]
  refine ⟨by ring, by ring, ?_, ?_⟩
  · rw [absf, abs_of_nonneg ha]; ring
  · rw [absf, abs_of_nonneg hd]; ring

/-- C7 witness: the amended equality at the concrete transform with scale
    2, 3 and translation 5, 7 on the rectangle at 1, 1 with size
    10 by 20. -/
theorem C7_cheap_path_eq_corners_w :
    Transform2D.transform_rect ⟨2, 0, 0, 3, 5, 7⟩ ⟨1, 1, 10, 20⟩ =
      Transform2D.transform_rect_corners ⟨2, 0, 0, 3, 5, 7⟩ ⟨1, 1, 10, 20⟩ :=
  C7_cheap_path_eq_corners _ _ rfl rfl (by norm_num) (by norm_num)
    (by norm_num) (by norm_num)

-- ===========================================================================
-- Helper lemmas: machine-integer casts
-- ===========================================================================

lemma u32_to_i32_bounds (w : ℕ) (hw : w < 2 ^ 32) :
    -(2 ^ 31) ≤ u32_to_i32 w ∧ u32_to_i32 w ≤ 2 ^ 31 - 1 := by
  unfold u32_to_i32; split_ifs <;> omega

lemma u32_to_i32_cast_chain (z : ℤ) (h0 : 0 ≤ z) (h1 : z < 2 ^ 31) :
    u32_to_i32 (i32_to_u32 (wrap_i32 z)) = z ∧
    (i32_to_u32 (wrap_i32 z) : ℤ) = z := by
  unfold u32_to_i32 i32_to_u32 wrap_i32
  split_ifs <;> omega

lemma right_bounds (r : Rect) : -(2 ^ 31) ≤ r.right ∧ r.right ≤ 2 ^ 31 - 1 := by
  unfold Rect.right saturating_add; omega

lemma bottom_bounds (r : Rect) : -(2 ^ 31) ≤ r.bottom ∧ r.bottom ≤ 2 ^ 31 - 1 := by
  unfold Rect.bottom saturating_add; omega

lemma right_le_x_add (r : Rect) (hx : -(2 ^ 31) ≤ r.x) (hw : r.width < 2 ^ 32) :
    r.right ≤ r.x + (2 ^ 31 - 1) := by
  have := u32_to_i32_bounds r.width hw
  unfold Rect.right saturating_add; omega

lemma bottom_le_y_add (r : Rect) (hy : -(2 ^ 31) ≤ r.y) (hh : r.height < 2 ^ 32) :
    r.bottom ≤ r.y + (2 ^ 31 - 1) := by
  have := u32_to_i32_bounds r.height hh
  unfold Rect.bottom saturating_add; omega

lemma u32_to_i32_cast_chain_signed (z : ℤ) (h0 : -(2 ^ 31) ≤ z)
    (h1 : z < 2 ^ 31) : u32_to_i32 (i32_to_u32 (wrap_i32 z)) = z := by
  unfold u32_to_i32 i32_to_u32 wrap_i32
  split_ifs <;> omega

lemma right_sub_x_ge (r : Rect) (hx : r.x < 2 ^ 31) (hw : r.width < 2 ^ 32) :
    r.right - r.x ≥ -(2 ^ 31) := by
  have := u32_to_i32_bounds r.width hw
  unfold Rect.right saturating_add; omega

lemma bottom_sub_y_ge (r : Rect) (hy : r.y < 2 ^ 31) (hh : r.height < 2 ^ 32) :
    r.bottom - r.y ≥ -(2 ^ 31) := by
  have := u32_to_i32_bounds r.height hh
  unfold Rect.bottom saturating_add; omega

-- ===========================================================================
-- C3: intersection against intersects, containment and maximality
-- ===========================================================================

/-- C3 counterexample: a zero-width rectangle strictly inside another
    satisfies intersects, yet intersection returns none, so the claimed
    equivalence fails for empty rectangles. -/
theorem C3_intersection_cx :
    Rect.intersects ⟨5, 0, 0, 10⟩ ⟨0, 0, 10, 10⟩ ∧
    Rect.intersection ⟨5, 0, 0, 10⟩ ⟨0, 0, 10, 10⟩ = none := by
  constructor <;> decide

/-- C3 amended: for well-formed rectangles, the none-iff-not-intersects
    equivalence holds provided both rectangles are non-degenerate (left
    edge strictly before right edge and top strictly before bottom, as
    computed); and whenever intersection returns some rectangle, that
    rectangle is contained in both operands and contains every rectangle
    contained in both, hence is the unique maximal common subrectangle. -/
theorem C3_intersection_correct (r1 r2 : Rect) (h1 : r1.WF) (h2 : r2.WF) :
    ((r1.x < r1.right ∧ r1.y < r1.bottom ∧ r2.x < r2.right ∧ r2.y < r2.bottom) →
      (r1.intersection r2 = none ↔ ¬ r1.intersects r2)) ∧
    ∀ i, r1.intersection r2 = some i →
      r1.contains_rect i ∧ r2.contains_rect i ∧
      ∀ s : Rect, r1.contains_rect s → r2.contains_rect s →
        i.contains_rect s := by
  obtain ⟨hx1a, hx1b, hy1a, hy1b, hw1, hh1⟩ := h1
  obtain ⟨hx2a, hx2b, hy2a, hy2b, hw2, hh2⟩ := h2
  constructor
  · rintro ⟨p1, p2, p3, p4⟩
    clear hx1a hx1b hy1a hy1b hw1 hh1 hx2a hx2b hy2a hy2b hw2 hh2
    by_cases hcond : max r1.x r2.x < min r1.right r2.right ∧
        max r1.y r2.y < min r1.bottom r2.bottom
    · unfold Rect.intersection
      rw [if_pos hcond]
      refine iff_of_false (by simp) (not_not_intro ?_)
      unfold Rect.intersects
      clear p1 p2 p3 p4
      omega
    · unfold Rect.intersection
      rw [if_neg hcond]
      refine iff_of_true rfl ?_
      intro hint
      unfold Rect.intersects at hint
      exact hcond (by omega)
  · intro i hi
    unfold Rect.intersection at hi
    split_ifs at hi with hcond
    · replace hi := Option.some.inj hi
      subst hi
      have hxr1 := right_le_x_add r1 hx1a hw1
      have hyb1 := bottom_le_y_add r1 hy1a hh1
      clear hx1b hy1b hw1 hh1 hx2b hy2b hw2 hh2
      have hdx : 0 < min r1.right r2.right - max r1.x r2.x ∧
          min r1.right r2.right - max r1.x r2.x < 2 ^ 31 := by
        clear hy1a hy2a hyb1
        omega
      have hdy : 0 < min r1.bottom r2.bottom - max r1.y r2.y ∧
          min r1.bottom r2.bottom - max r1.y r2.y < 2 ^ 31 := by
        clear hx1a hx2a hxr1
        omega
      have cx := u32_to_i32_cast_chain (min r1.right r2.right - max r1.x r2.x)
        (le_of_lt hdx.1) hdx.2
      have cy := u32_to_i32_cast_chain (min r1.bottom r2.bottom - max r1.y r2.y)
        (le_of_lt hdy.1) hdy.2
      have rb1 := right_bounds r1
      have rb2 := right_bounds r2
      have bb1 := bottom_bounds r1
      have bb2 := bottom_bounds r2
      have hir : (Rect.mk (max r1.x r2.x) (max r1.y r2.y)
          (i32_to_u32 (wrap_i32 (min r1.right r2.right - max r1.x r2.x)))
          (i32_to_u32 (wrap_i32 (min r1.bottom r2.bottom - max r1.y r2.y)))).right =
          min r1.right r2.right := by
        rw [show (Rect.mk (max r1.x r2.x) (max r1.y r2.y)
          (i32_to_u32 (wrap_i32 (min r1.right r2.right - max r1.x r2.x)))
          (i32_to_u32 (wrap_i32 (min r1.bottom r2.bottom - max r1.y r2.y)))).right =
            saturating_add (max r1.x r2.x) (u32_to_i32 (i32_to_u32 (wrap_i32
              (min r1.right r2.right - max r1.x r2.x)))) from rfl, cx.1]
        clear cx cy hdx hdy hcond hxr1 hyb1 hx1a hy1a hx2a hy2a bb1 bb2
        unfold saturating_add
        omega
      have hib : (Rect.mk (max r1.x r2.x) (max r1.y r2.y)
          (i32_to_u32 (wrap_i32 (min r1.right r2.right - max r1.x r2.x)))
          (i32_to_u32 (wrap_i32 (min r1.bottom r2.bottom - max r1.y r2.y)))).bottom =
          min r1.bottom r2.bottom := by
        rw [show (Rect.mk (max r1.x r2.x) (max r1.y r2.y)
          (i32_to_u32 (wrap_i32 (min r1.right r2.right - max r1.x r2.x)))
          (i32_to_u32 (wrap_i32 (min r1.bottom r2.bottom - max r1.y r2.y)))).bottom =
            saturating_add (max r1.y r2.y) (u32_to_i32 (i32_to_u32 (wrap_i32
              (min r1.bottom r2.bottom - max r1.y r2.y)))) from rfl, cy.1]
        clear cx cy hdx hdy hcond hxr1 hyb1 hx1a hy1a hx2a hy2a rb1 rb2
        unfold saturating_add
        omega
      clear cx cy hdx hdy hcond hxr1 hyb1 hx1a hy1a hx2a hy2a rb1 rb2 bb1 bb2
      refine ⟨?_, ?_, ?_⟩
      · unfold Rect.contains_rect
        rw [hir, hib]
        dsimp only
        omega
      · unfold Rect.contains_rect
        rw [hir, hib]
        dsimp only
        omega
      · intro s hs1 hs2
        unfold Rect.contains_rect at hs1 hs2 ⊢
        rw [hir, hib]
        dsimp only
        omega

/-- C3 witness: the amended theorem applied to the overlapping rectangles
    of the example scenario yields containment of their intersection. -/
theorem C3_intersection_correct_w :
    Rect.contains_rect ⟨0, 0, 100, 100⟩ ⟨50, 50, 50, 50⟩ ∧
    (Rect.intersection ⟨0, 0, 100, 100⟩ ⟨50, 50, 100, 100⟩ = none ↔
      ¬ Rect.intersects ⟨0, 0, 100, 100⟩ ⟨50, 50, 100, 100⟩) := by
  have h := C3_intersection_correct ⟨0, 0, 100, 100⟩ ⟨50, 50, 100, 100⟩
    (by decide) (by decide)
  exact ⟨(h.2 ⟨50, 50, 50, 50⟩ (by decide)).1, h.1 (by decide)⟩

-- ===========================================================================
-- C4: union containment, minimality, and the empty-operand cases
-- ===========================================================================

/-- C4 counterexample: with one empty operand the union is the other
    operand, which does not contain the empty operand located elsewhere,
    so the union does not contain both operands whenever only one is
    non-empty and the empty one lies outside it.  Moreover even for two
    non-empty operands the union fails to contain them when the joint
    span overflows i32: the width wraps and the right edge of the result
    saturates below the operands. -/
theorem C4_union_cx :
    (¬ Rect.is_empty ⟨0, 0, 1, 1⟩ ∧
      ¬ (Rect.union ⟨100, 100, 0, 0⟩ ⟨0, 0, 1, 1⟩).contains_rect
        ⟨100, 100, 0, 0⟩) ∧
    (¬ Rect.is_empty ⟨-2147483648, 0, 1, 1⟩ ∧
      ¬ Rect.is_empty ⟨2147483646, 0, 1, 1⟩ ∧
      ¬ (Rect.union ⟨-2147483648, 0, 1, 1⟩ ⟨2147483646, 0, 1, 1⟩).contains_rect
        ⟨2147483646, 0, 1, 1⟩) := by
  refine ⟨⟨?_, ?_⟩, ?_, ?_, ?_⟩ <;> decide

/-- C4 amended: if exactly one operand is empty, union returns the other
    operand unchanged; and for two well-formed non-empty rectangles whose
    joint span in each axis fits in i32, the union contains both operands
    and every rectangle containing both operands contains the union, so
    the union is minimal. -/
theorem C4_union_correct (r1 r2 : Rect) :
    (r1.is_empty → ¬ r2.is_empty → r1.union r2 = r2) ∧
    (¬ r1.is_empty → r2.is_empty → r1.union r2 = r1) ∧
    (r1.WF → r2.WF → ¬ r1.is_empty → ¬ r2.is_empty →
      max r1.right r2.right - min r1.x r2.x ≤ 2 ^ 31 - 1 →
      max r1.bottom r2.bottom - min r1.y r2.y ≤ 2 ^ 31 - 1 →
      (r1.union r2).contains_rect r1 ∧ (r1.union r2).contains_rect r2 ∧
      ∀ s : Rect, s.contains_rect r1 → s.contains_rect r2 →
        s.contains_rect (r1.union r2)) := by
  refine ⟨?_, ?_, ?_⟩
  · intro h1 _
    unfold Rect.union
    rw [if_pos h1]
  · intro h1 h2
    unfold Rect.union
    rw [if_neg h1, if_pos h2]
  · intro h1 h2 ne1 ne2 s1 s2
    obtain ⟨hx1a, hx1b, hy1a, hy1b, hw1, hh1⟩ := h1
    obtain ⟨hx2a, hx2b, hy2a, hy2b, hw2, hh2⟩ := h2
    have hu : r1.union r2 = Rect.mk (min r1.x r2.x) (min r1.y r2.y)
        (i32_to_u32 (wrap_i32 (max r1.right r2.right - min r1.x r2.x)))
        (i32_to_u32 (wrap_i32 (max r1.bottom r2.bottom - min r1.y r2.y))) := by
      unfold Rect.union
      rw [if_neg ne1, if_neg ne2]
    have g1 := right_sub_x_ge r1 hx1b hw1
    have g2 := right_sub_x_ge r2 hx2b hw2
    have g3 := bottom_sub_y_ge r1 hy1b hh1
    have g4 := bottom_sub_y_ge r2 hy2b hh2
    clear ne1 ne2 hx1a hx1b hy1a hy1b hw1 hh1 hx2a hx2b hy2a hy2b hw2 hh2
    have hdx : -(2 ^ 31) ≤ max r1.right r2.right - min r1.x r2.x ∧
        max r1.right r2.right - min r1.x r2.x < 2 ^ 31 := by
      clear hu g3 g4 s2
      omega
    have hdy : -(2 ^ 31) ≤ max r1.bottom r2.bottom - min r1.y r2.y ∧
        max r1.bottom r2.bottom - min r1.y r2.y < 2 ^ 31 := by
      clear hu g1 g2 s1
      omega
    have cx := u32_to_i32_cast_chain_signed
      (max r1.right r2.right - min r1.x r2.x) hdx.1 hdx.2
    have cy := u32_to_i32_cast_chain_signed
      (max r1.bottom r2.bottom - min r1.y r2.y) hdy.1 hdy.2
    clear hdx hdy g1 g2 g3 g4 s1 s2
    have hur : (Rect.mk (min r1.x r2.x) (min r1.y r2.y)
        (i32_to_u32 (wrap_i32 (max r1.right r2.right - min r1.x r2.x)))
        (i32_to_u32 (wrap_i32 (max r1.bottom r2.bottom - min r1.y r2.y)))).right =
        max r1.right r2.right := by
      rw [show (Rect.mk (min r1.x r2.x) (min r1.y r2.y)
        (i32_to_u32 (wrap_i32 (max r1.right r2.right - min r1.x r2.x)))
        (i32_to_u32 (wrap_i32 (max r1.bottom r2.bottom - min r1.y r2.y)))).right =
          saturating_add (min r1.x r2.x) (u32_to_i32 (i32_to_u32 (wrap_i32
            (max r1.right r2.right - min r1.x r2.x)))) from rfl, cx]
      have rb1 := right_bounds r1
      have rb2 := right_bounds r2
      clear cx cy hu
      unfold saturating_add
      omega
    have hub : (Rect.mk (min r1.x r2.x) (min r1.y r2.y)
        (i32_to_u32 (wrap_i32 (max r1.right r2.right - min r1.x r2.x)))
        (i32_to_u32 (wrap_i32 (max r1.bottom r2.bottom - min r1.y r2.y)))).bottom =
        max r1.bottom r2.bottom := by
      rw [show (Rect.mk (min r1.x r2.x) (min r1.y r2.y)
        (i32_to_u32 (wrap_i32 (max r1.right r2.right - min r1.x r2.x)))
        (i32_to_u32 (wrap_i32 (max r1.bottom r2.bottom - min r1.y r2.y)))).bottom =
          saturating_add (min r1.y r2.y) (u32_to_i32 (i32_to_u32 (wrap_i32
            (max r1.bottom r2.bottom - min r1.y r2.y)))) from rfl, cy]
      have bb1 := bottom_bounds r1
      have bb2 := bottom_bounds r2
      clear cx cy hu
      unfold saturating_add
      omega
    clear cx cy
    rw [hu]
    refine ⟨?_, ?_, ?_⟩
    · unfold Rect.contains_rect
      rw [hur, hub]
      dsimp only
      omega
    · unfold Rect.contains_rect
      rw [hur, hub]
      dsimp only
      omega
    · intro s hs1 hs2
      unfold Rect.contains_rect at hs1 hs2 ⊢
      rw [hur, hub]
      dsimp only
      omega

/-- C4 witness: the empty-operand case, containment of both operands for
    two concrete overlapping rectangles, and containment of a non-empty
    degenerate operand (width 2 to the 31, whose computed right edge
    saturates below its left edge). -/
theorem C4_union_correct_w :
    Rect.union ⟨7, 7, 0, 0⟩ ⟨1, 2, 3, 4⟩ = ⟨1, 2, 3, 4⟩ ∧
    (Rect.union ⟨0, 0, 4, 4⟩ ⟨2, 2, 4, 4⟩).contains_rect ⟨0, 0, 4, 4⟩ ∧
    (Rect.union ⟨0, 0, 4, 4⟩ ⟨2, 2, 4, 4⟩).contains_rect ⟨2, 2, 4, 4⟩ ∧
    (Rect.union ⟨0, 0, 2147483648, 5⟩ ⟨2, 2, 4, 4⟩).contains_rect
      ⟨0, 0, 2147483648, 5⟩ := by
  refine ⟨(C4_union_correct ⟨7, 7, 0, 0⟩ ⟨1, 2, 3, 4⟩).1 (by decide) (by decide),
    ?_, ?_, ?_⟩
  · exact ((C4_union_correct ⟨0, 0, 4, 4⟩ ⟨2, 2, 4, 4⟩).2.2 (by decide)
      (by decide) (by decide) (by decide) (by decide) (by decide)).1
  · exact ((C4_union_correct ⟨0, 0, 4, 4⟩ ⟨2, 2, 4, 4⟩).2.2 (by decide)
      (by decide) (by decide) (by decide) (by decide) (by decide)).2.1
  · exact ((C4_union_correct ⟨0, 0, 2147483648, 5⟩ ⟨2, 2, 4, 4⟩).2.2
      (by decide) (by decide) (by decide) (by decide) (by decide)
      (by decide)).1

-- ===========================================================================
-- C5: sub_region bounds validation and success shape
-- ===========================================================================

/-- C5 counterexample: the u32 additions in the bounds check of sub_region
    wrap, so a request whose mathematical x + width exceeds the buffer
    width can still succeed: on a 10 by 10 buffer, the rectangle at x 5
    with width 4294967292 passes the check because 5 + 4294967292 wraps
    to 1. -/
theorem C5_sub_region_cx :
    BufferDescriptor.sub_region (BufferDescriptor.new 10 10 .ARGB8888)
      ⟨5, 0, 4294967292, 1⟩ =
      some (⟨4294967292, 1, 40, .ARGB8888⟩, 20) ∧
    (5 + 4294967292 : ℤ) >
      ((BufferDescriptor.new 10 10 .ARGB8888).width : ℤ) := by
  constructor <;> decide

/-- C5 amended: when the bounds additions x + width and y + height do not
    overflow u32, sub_region returns none exactly on the out-of-bounds
    requests (negative origin or extent exceeding the buffer), and on
    success it returns the descriptor with the width and height of the
    rectangle, the original stride and format, and the byte offset
    pixel_offset of the origin of the rectangle. -/
theorem C5_sub_region_correct (d : BufferDescriptor) (rect : Rect)
    (hxw : rect.x.toNat + rect.width < 2 ^ 32)
    (hyh : rect.y.toNat + rect.height < 2 ^ 32) :
    (d.sub_region rect = none ↔
      (rect.x < 0 ∨ rect.y < 0 ∨ rect.x.toNat + rect.width > d.width ∨
        rect.y.toNat + rect.height > d.height)) ∧
    ∀ desc off, d.sub_region rect = some (desc, off) →
      desc.width = rect.width ∧ desc.height = rect.height ∧
      desc.stride = d.stride ∧ desc.format = d.format ∧
      off = d.pixel_offset rect.x.toNat rect.y.toNat := by
  unfold BufferDescriptor.sub_region
  rw [Nat.mod_eq_of_lt hxw, Nat.mod_eq_of_lt hyh]
  constructor
  · split_ifs with h1 h2
    · exact iff_of_true rfl (by tauto)
    · exact iff_of_true rfl (by tauto)
    · refine iff_of_false (by simp) ?_
      push_neg at h1 h2
      rintro (h | h | h | h) <;> omega
  · intro desc off h
    split_ifs at h with h1 h2
    injection Option.some.inj h with h5 h6
    subst h5
    subst h6
    exact ⟨rfl, rfl, rfl, rfl, rfl⟩

/-- C5 witness: a rectangle with negative x on a 10 by 10 buffer is
    rejected. -/
theorem C5_sub_region_correct_w :
    (BufferDescriptor.new 10 10 .ARGB8888).sub_region ⟨-1, 0, 3, 3⟩ = none :=
  ((C5_sub_region_correct (BufferDescriptor.new 10 10 .ARGB8888) ⟨-1, 0, 3, 3⟩
    (by decide) (by decide)).1).mpr (by decide)

end Gfx
